import Mathlib

/-!
Shallow embedding of the cluster-ops process-supervision engine
(src/lib/cluster.js and src/lib/worker.js) together with theorems
checking the natural-language specification against it.

Conventions of the embedding:
* JS numbers used as counts / exit codes / times are `Int` or `Nat`.
* The supervisor registry `this.#workers` (a string-keyed JS object built
  only through `this.#workers[id] = w` and `delete this.#workers[id]`) is a
  `List WorkerRec` in insertion order with overwrite-in-place on key reuse,
  matching JS object key semantics.
* Event emission is modelled by returning the list of emitted events in
  emission order.
* `cluster.fork` / `Math.random` / `Date` are external collaborators: the
  generated worker id, spawn time and random bytes enter as parameters.
* A JS `throw` escaping a method is a `DownResult.threw` carrying the
  state as already mutated at the throw site (JS exceptions do not roll
  back mutations to `this`).
-/

namespace ClusterOps

/-- JS value of a `type` field of a message envelope: `null`, `undefined`,
or a string (cluster.js lines 384-392, worker.js lines 41-49). -/
inductive JType where
  | jnull
  | jundef
  | jstr (s : String)
deriving DecidableEq

/-- Modelled from the spec: `src/lib/syscalls.js` is required by both
cluster.js and worker.js but is absent from the sources; spec section 2
("Protocol/Types - enumerates system call kinds (EXIT, SPIN_UP, SPIN_DOWN)")
describes it as an enumeration of distinct system call kinds with no
internal state. -/
inductive Syscall where
  | EXIT
  | SPIN_UP
  | SPIN_DOWN
deriving DecidableEq

/-- Which "exit" listener is currently attached to a worker handle on the
supervisor side: the default restart-capable `#onExit` handler installed at
spawn (cluster.js line 374), or the replacement handler installed by
`#terminateWorker` after `removeAllListeners("exit")` (lines 330, 338-345). -/
inductive ExitMode where
  | default
  | terminating
deriving DecidableEq

/-- A worker handle as the supervisor sees it: `worker.WORKER_ID`,
`worker.BIRTH_TIME`, `worker.DEATH_TIME` (unset until exit), and the
currently attached exit handler (cluster.js lines 369-374, 413). -/
structure WorkerRec where
  id : String
  birth : Nat
  death : Option Nat
  exitMode : ExitMode
deriving DecidableEq

/-- The message sent to a worker by `#terminateWorker` (cluster.js lines
332-336): `{type: null, system: syscalls.EXIT, WORKER_ID}`. Note the
syscall kind travels under the field name `system`. -/
structure TermMsg where
  type : JType
  system : Syscall
  WORKER_ID : String
deriving DecidableEq

/-- Events emitted by the supervisor (`this.emit(...)` in cluster.js). -/
inductive SupEvent where
  | death (w : WorkerRec) (code : Int) (signal : Option String)
  | restart (oldw : WorkerRec) (neww : WorkerRec) (code : Int) (signal : Option String)
deriving DecidableEq

/-- Supervisor state: the configuration fields of `Cluster` that the
modelled operations read or write, the worker registry, and the log of
messages sent to workers (cluster.js lines 14-26, 59-71). -/
structure Cluster where
  target_workers : Int
  restart_on_error : Bool
  restart_on_signal : Bool
  restart_on_normal_exit : Bool
  min_restart_age : Int
  workers : List WorkerRec
  sent : List TermMsg
deriving DecidableEq

/-- `this.#workers[w.id] = w`: overwrite in place when the key exists,
otherwise append (JS string-keyed object assignment). -/
def insertWorker (ws : List WorkerRec) (w : WorkerRec) : List WorkerRec :=
  if ws.any (fun v => v.id = w.id) then
    ws.map (fun v => if v.id = w.id then w else v)
  else
    ws ++ [w]

/-- `delete this.#workers[id]`. -/
def eraseWorker (ws : List WorkerRec) (id : String) : List WorkerRec :=
  ws.filter (fun v => v.id ≠ id)

/-- `Object.keys(this.#workers)`. -/
def workerKeys (ws : List WorkerRec) : List String :=
  ws.map (fun w => w.id)

/-- `get running_workers()` (cluster.js lines 249-251). -/
def runningWorkers (st : Cluster) : Nat :=
  (workerKeys st.workers).length

/-- `#spawnWorker()` (cluster.js lines 348-377) restricted to supervisor
state: registers a fresh handle under the generated id with the default
exit handler attached and `BIRTH_TIME = now`. The generated id and the
clock are parameters (they come from `Date`/`Math.random`). -/
def spawnWorker (st : Cluster) (newId : String) (now : Nat) : Cluster :=
  { st with workers := insertWorker st.workers ⟨newId, now, none, ExitMode.default⟩ }

/-- Spawn once per id in the list, left to right. -/
def spawnMany (st : Cluster) (idList : List String) (now : Nat) : Cluster :=
  idList.foldl (fun s id => spawnWorker s id now) st

/-- The ids an id supply produces for `n` consecutive spawns. -/
def supplyIds (ids : Nat → String) (n : Nat) : List String :=
  (List.range n).map ids

/-- `start()` (cluster.js lines 256-260): spawn `target_workers` times
(a JS `for` loop over a negative bound runs zero times, hence `toNat`). -/
def start (st : Cluster) (ids : Nat → String) (now : Nat) : Cluster :=
  spawnMany st (supplyIds ids st.target_workers.toNat) now

/-- `spinUp(x)` (cluster.js lines 284-290): `target_workers += x`, then
spawn `x` times. -/
def spinUp (st : Cluster) (x : Int) (ids : Nat → String) (now : Nat) : Cluster :=
  spawnMany { st with target_workers := st.target_workers + x }
    (supplyIds ids x.toNat) now

/-- `refreshWorkers()` (cluster.js lines 314-321): spawn
`target_workers - running_workers` times. -/
def refreshWorkers (st : Cluster) (ids : Nat → String) (now : Nat) : Cluster :=
  spawnMany st
    (supplyIds ids (st.target_workers - (runningWorkers st : Int)).toNat) now

/-- Outcome of a supervisor method that can throw: JS exceptions unwind the
call but keep every mutation already applied to `this`, so the thrown case
carries the state at the throw site. -/
inductive DownResult where
  | ok (st : Cluster)
  | threw (st : Cluster) (msg : String)
deriving DecidableEq

/-- The supervisor state inside a `DownResult`, thrown or not. -/
def DownResult.state : DownResult → Cluster
  | DownResult.ok st => st
  | DownResult.threw st _ => st

/-- `#terminateWorker(WORKER_ID)` (cluster.js lines 328-346): look up the
handle (`this.#workers[WORKER_ID]`); on a missing key the lookup yields
`undefined` and `worker.removeAllListeners` throws a TypeError. Otherwise
detach the default exit handler, send `{type: null, system: EXIT,
WORKER_ID}` to the worker, and attach the terminating exit handler.
The registry itself is not modified here. -/
def terminateWorker (st : Cluster) (id : String) : DownResult :=
  match st.workers.find? (fun w => w.id = id) with
  | none =>
      DownResult.threw st
        "TypeError: Cannot read properties of undefined (reading removeAllListeners)"
  | some _ =>
      DownResult.ok
        { st with
          workers := st.workers.map
            (fun v => if v.id = id then { v with exitMode := ExitMode.terminating } else v),
          sent := st.sent ++ [⟨JType.jnull, Syscall.EXIT, id⟩] }

/-- `for (let i = 0; i < x; ++i) this.#terminateWorker(keys[i]);`
(cluster.js lines 302-306, 268-270): iterate the remaining count, indexing
into the pre-computed `keys` array; `keys[i]` past the end is `undefined`
and `#terminateWorker(undefined)` throws. -/
def terminateSeq (st : Cluster) (keys : List String) (i : Nat) : Nat → DownResult
  | 0 => DownResult.ok st
  | Nat.succ m =>
      match keys[i]? with
      | none =>
          DownResult.threw st
            "TypeError: Cannot read properties of undefined (reading removeAllListeners)"
      | some k =>
          match terminateWorker st k with
          | DownResult.ok st' => terminateSeq st' keys (i + 1) m
          | DownResult.threw st' msg => DownResult.threw st' msg

/-- `spinDown(x, force)` (cluster.js lines 298-308): `target_workers -= x`
first; if `force`, terminate `keys[0] .. keys[x-1]` where
`keys = Object.keys(this.#workers)` is computed once. -/
def spinDown (st : Cluster) (x : Int) (force : Bool) : DownResult :=
  let st1 : Cluster := { st with target_workers := st.target_workers - x }
  if force then
    terminateSeq st1 (workerKeys st1.workers) 0 x.toNat
  else
    DownResult.ok st1

/-- `#onExit(worker, code, signal)` (cluster.js lines 412-438): set
`DEATH_TIME`, delete the record, emit `death`, then per registry shortfall
and restart policy possibly spawn a replacement and emit `restart` with
the old handle, the freshly registered handle, code and signal. -/
def onExit (st : Cluster) (w : WorkerRec) (code : Int) (signal : Option String)
    (now : Nat) (newId : String) : Cluster × List SupEvent :=
  let dead : WorkerRec := { w with death := some now }
  let st1 : Cluster := { st with workers := eraseWorker st.workers w.id }
  let age : Int := (now : Int) - (w.birth : Int)
  let newRec : WorkerRec := ⟨newId, now, none, ExitMode.default⟩
  if (st1.workers.length : Int) < st1.target_workers then
    match signal with
    | some _ =>
        if age ≥ st1.min_restart_age ∧ st1.restart_on_signal then
          (spawnWorker st1 newId now,
            [SupEvent.death dead code signal, SupEvent.restart dead newRec code signal])
        else
          (st1, [SupEvent.death dead code signal])
    | none =>
        if code ≠ 0 then
          if age ≥ st1.min_restart_age ∧ st1.restart_on_error then
            (spawnWorker st1 newId now,
              [SupEvent.death dead code signal, SupEvent.restart dead newRec code signal])
          else
            (st1, [SupEvent.death dead code signal])
        else
          if age ≥ st1.min_restart_age ∧ st1.restart_on_normal_exit then
            (spawnWorker st1 newId now,
              [SupEvent.death dead code signal, SupEvent.restart dead newRec code signal])
          else
            (st1, [SupEvent.death dead code signal])
  else
    (st1, [SupEvent.death dead code signal])

/-- The exit handler installed by `#terminateWorker` (cluster.js lines
338-345): emit `death` only when the exit was abnormal (a signal or a
nonzero code), then delete the record. `DEATH_TIME` is not set here. -/
def termExitHandler (st : Cluster) (w : WorkerRec) (code : Int)
    (signal : Option String) : Cluster × List SupEvent :=
  let evs : List SupEvent :=
    if signal.isSome ∨ code ≠ 0 then [SupEvent.death w code signal] else []
  ({ st with workers := eraseWorker st.workers w.id }, evs)

/-- Dispatch of a process-exit notification to whichever exit listener is
attached to the registered handle for that id. -/
def handleExit (st : Cluster) (wid : String) (code : Int) (signal : Option String)
    (now : Nat) (newId : String) : Cluster × List SupEvent :=
  match st.workers.find? (fun w => w.id = wid) with
  | none => (st, [])
  | some w =>
      match w.exitMode with
      | ExitMode.default => onExit st w code signal now newId
      | ExitMode.terminating => termExitHandler st w code signal

/-- An inbound message from a worker as the supervisor demuxes it
(cluster.js lines 384-405): envelope type, and for system calls the
`call` and `count` fields. -/
structure InMsg where
  type : JType
  call : Option Syscall
  count : Int
deriving DecidableEq

/-- Routing events emitted by `#onMessage` for non-system messages. -/
inductive RouteEvent where
  | message (wid : String)
  | typedMessage (t : String) (wid : String)
deriving DecidableEq

/-- `#onSystemMessage(worker, msg)` (cluster.js lines 399-405). -/
def onSystemMessage (st : Cluster) (msg : InMsg) (ids : Nat → String)
    (now : Nat) : DownResult :=
  if msg.call = some Syscall.SPIN_UP then
    DownResult.ok (spinUp st msg.count ids now)
  else if msg.call = some Syscall.SPIN_DOWN then
    spinDown st msg.count false
  else
    DownResult.ok st

/-- `#onMessage(worker, msg)` (cluster.js lines 384-392). -/
def onMessage (st : Cluster) (wid : String) (msg : InMsg) (ids : Nat → String)
    (now : Nat) : DownResult × List RouteEvent :=
  match msg.type with
  | JType.jnull => (onSystemMessage st msg ids now, [])
  | JType.jundef => (DownResult.ok st, [RouteEvent.message wid])
  | JType.jstr t => (DownResult.ok st, [RouteEvent.typedMessage t wid])

/-! ### The `stop()` promise (cluster.js lines 265-279)

`stop()` terminates every tracked worker, then returns a promise whose
executor schedules one `process.nextTick` callback; that callback checks
`Object.keys(this.#workers).length === 0` exactly once and calls
`resolve()` only if the registry is empty at that instant. Exit
notifications for terminating workers remove registry entries as they are
processed. The interleaving of the one tick callback with the exit
notifications is modelled as an explicit event sequence. -/

/-- Supervisor-side state relevant to the pending `stop()` promise: the
live registry keys, whether `resolve()` has been called, and whether the
single scheduled tick callback is still pending. -/
structure StopState where
  workers : List String
  resolved : Bool
  tickPending : Bool
deriving DecidableEq

/-- One event-loop event while `stop()` is pending: the scheduled
`nextTick` callback firing, or one worker's exit notification being
processed (whose handler deletes that registry entry). -/
inductive StopEv where
  | tick
  | exits (id : String)
deriving DecidableEq

/-- Process one event: the tick callback resolves the promise only when it
finds the registry empty, and in either case never runs again; an exit
notification removes the worker's key. -/
def stopStep (s : StopState) (e : StopEv) : StopState :=
  match e with
  | StopEv.tick =>
      if s.tickPending ∧ s.workers.isEmpty then
        { s with resolved := true, tickPending := false }
      else
        { s with tickPending := false }
  | StopEv.exits id =>
      { s with workers := s.workers.filter (fun k => k ≠ id) }

/-- Run a sequence of event-loop events. -/
def runStop (s : StopState) (es : List StopEv) : StopState :=
  es.foldl stopStep s

/-- The `stop()` call itself: terminate every registered worker
(`keys = Object.keys(this.#workers)`, then `#terminateWorker(keys[i])`
for each), and create the promise with its one pending tick callback. -/
def stop (st : Cluster) : DownResult × StopState :=
  let keys := workerKeys st.workers
  (terminateSeq st keys 0 keys.length,
    ⟨keys, false, true⟩)

/-! ### Worker identity generation (cluster.js lines 359-362)

`WORKER_ID = Math.floor(Date.now()/1000).toString(16).padStart(8, '0')`
followed by 8 random bytes each rendered as
`Math.floor(Math.random()*0x100).toString(16).padStart(2, '0')`. -/

/-- The hex digit character for a value below 16, lowercase as JS
`Number.prototype.toString(16)` produces. -/
def hexChar (d : Nat) : Char :=
  if d < 10 then Char.ofNat (48 + d) else Char.ofNat (87 + d)

/-- JS `n.toString(16)` for a nonnegative integer: most-significant-first
hex digits, `"0"` for zero, lowercase. -/
def natToHex (n : Nat) : String :=
  if n = 0 then "0" else String.mk (((Nat.digits 16 n).reverse).map hexChar)

/-- JS `String.prototype.padStart(n, c)`: left-pad to length `n`; a string
already at least `n` long is returned unchanged (never truncated). -/
def padStart (s : String) (n : Nat) (c : Char) : String :=
  String.mk (List.replicate (n - s.length) c) ++ s

/-- The generated worker identity, as a function of the clock reading in
milliseconds and the 8 random bytes. -/
def genWorkerId (timeMs : Nat) (bytes : List Nat) : String :=
  bytes.foldl (fun acc b => acc ++ padStart (natToHex b) 2 '0')
    (padStart (natToHex (timeMs / 1000)) 8 '0')

/-- The object literal `{WORKER_ID, ...this.#env}` passed to
`cluster.fork` (cluster.js lines 364-367): assignments in order, spread
entries after the `WORKER_ID` shorthand, later assignments overriding. -/
def forkEnv (id : String) (env : List (String × String)) : List (String × String) :=
  (⟨"WORKER_ID", id⟩ : String × String) :: env

/-- Lookup in an in-order assignment list: the last assignment to a key
wins, as in a JS object literal. -/
def objGet (pairs : List (String × String)) (k : String) : Option String :=
  (pairs.reverse.find? (fun p => p.1 = k)).map (fun p => p.2)

/-! ### WorkerAgent (src/lib/worker.js) -/

/-- The classification object carried by the worker-side "exit" event
(worker.js lines 22-34, 63-65). -/
inductive WClass where
  | requested
  | signal (name : String)
  | disconnected
  | error
deriving DecidableEq

/-- Observable worker-side happenings, in order: each previously
registered "exit" listener running (with the classification it received),
and `process.exit(code)`. -/
inductive WEvent where
  | listenerRan (i : Nat) (c : WClass)
  | exited (code : Int)
deriving DecidableEq

/-- WorkerAgent state: the number of application "exit" listeners
registered so far (each modelled by its index, in registration order). -/
structure WAgent where
  numListeners : Nat
deriving DecidableEq

/-- `#onExit(msg, opts, exit)` (worker.js lines 51-59): when `exit` is
true, first append a once-listener calling `process.exit(0)` to the end of
the "exit" listener list, then `emit("exit", opts)` runs every listener in
registration order - so the appended terminator runs last. When `exit` is
false, only the existing listeners run and the process is not terminated. -/
def workerOnExit (a : WAgent) (c : WClass) (exit : Bool) : List WEvent :=
  let base := (List.range a.numListeners).map (fun i => WEvent.listenerRan i c)
  if exit then base ++ [WEvent.exited 0] else base

/-- A message as the WorkerAgent demuxes it (worker.js lines 41-49,
61-67): envelope type and the `call` field of a system call. -/
structure WInMsg where
  type : JType
  call : Option Syscall
deriving DecidableEq

/-- `#onSystemMessage(msg)` (worker.js lines 61-67): only an EXIT call is
handled, as an orderly requested exit. -/
def workerOnSystemMessage (a : WAgent) (msg : WInMsg) : List WEvent :=
  if msg.call = some Syscall.EXIT then
    workerOnExit a WClass.requested true
  else
    []

/-- `#onMessage(msg)` on the worker (worker.js lines 41-49); only the
system branch produces the modelled exit events. -/
def workerOnMessage (a : WAgent) (msg : WInMsg) : List WEvent :=
  match msg.type with
  | JType.jnull => workerOnSystemMessage a msg
  | _ => []

/-- The hook installed for each caught signal (worker.js lines 21-25). -/
def workerOnSignal (a : WAgent) (name : String) : List WEvent :=
  workerOnExit a (WClass.signal name) true

/-- The hook installed on loss of the IPC channel (worker.js lines
28-30). -/
def workerOnDisconnect (a : WAgent) : List WEvent :=
  workerOnExit a WClass.disconnected true

/-- The hook installed on `uncaughtExceptionMonitor` (worker.js lines
32-34): a passive notification, `exit = false`. -/
def workerOnUncaught (a : WAgent) : List WEvent :=
  workerOnExit a WClass.error false

/-- The `Worker` constructor guard (worker.js lines 9-17): given the
static `#has_been_created` flag, either throw or succeed and set the
flag. -/
def constructWorker (has_been_created : Bool) : Except String (Bool × WAgent) :=
  if has_been_created then
    Except.error "[cluster-ops] Worker instance has already been created in this process"
  else
    Except.ok (true, ⟨0⟩)

/-- Run `n` consecutive construction attempts in one process, returning
the number that succeeded and the final flag. -/
def runConstructions (flag : Bool) : Nat → Nat × Bool
  | 0 => (0, flag)
  | Nat.succ m =>
      match constructWorker flag with
      | Except.ok (flag', _) =>
          let r := runConstructions flag' m
          (r.1 + 1, r.2)
      | Except.error _ =>
          runConstructions flag m

/-- Did the method throw? -/
def DownResult.didThrow : DownResult → Bool
  | DownResult.ok _ => false
  | DownResult.threw _ _ => true

/-- One invocation of a public supervisor operation (or of the handler for
a worker-initiated system message), with the external inputs (id supply,
clock) it consumes. -/
inductive Op where
  | opStart (ids : Nat → String) (now : Nat)
  | opStop
  | opSpinUp (x : Int) (ids : Nat → String) (now : Nat)
  | opSpinDown (x : Int) (force : Bool)
  | opRefresh (ids : Nat → String) (now : Nat)
  | opSysMsg (msg : InMsg) (ids : Nat → String) (now : Nat)

/-- The supervisor state after one operation (for a throwing operation,
the state as mutated up to the throw). -/
def applyOp (st : Cluster) : Op → Cluster
  | Op.opStart ids now => start st ids now
  | Op.opStop => (stop st).1.state
  | Op.opSpinUp x ids now => spinUp st x ids now
  | Op.opSpinDown x force => (spinDown st x force).state
  | Op.opRefresh ids now => refreshWorkers st ids now
  | Op.opSysMsg msg ids now => (onMessage st "" msg ids now).1.state

/-- Safe-usage side condition for an operation: scaling amounts are
nonnegative, and no spin-down request exceeds the current target. -/
def opSafe (st : Cluster) : Op → Prop
  | Op.opSpinUp x _ _ => 0 ≤ x
  | Op.opSpinDown x _ => 0 ≤ x ∧ x ≤ st.target_workers
  | Op.opSysMsg msg _ _ =>
      (msg.call = some Syscall.SPIN_UP → 0 ≤ msg.count)
      ∧ (msg.call = some Syscall.SPIN_DOWN →
          0 ≤ msg.count ∧ msg.count ≤ st.target_workers)
  | _ => True

/-- The 16 random hex characters of an identity: the fold of the byte loop
(cluster.js lines 360-362) started from the empty string. -/
def bytesHex (bytes : List Nat) : String :=
  bytes.foldl (fun acc b => acc ++ padStart (natToHex b) 2 '0') ""

/-- A lowercase hexadecimal digit character. -/
def isHexDigitChar (c : Char) : Prop :=
  c ∈ "0123456789abcdef".data

instance (c : Char) : Decidable (isHexDigitChar c) := by
  unfold isHexDigitChar
  infer_instance

/-! ## Theorems -/

/-- Once the single tick callback has fired without resolving, no later
event can ever resolve the promise. -/
theorem runStop_resolved_stable (es : List StopEv) : ∀ s : StopState,
    s.resolved = false → s.tickPending = false → (runStop s es).resolved = false := by
  induction es with
  | nil => intro s hr _; exact hr
  | cons e rest ih =>
      intro s hr ht
      cases e with
      | tick =>
          have : runStop s (StopEv.tick :: rest) = runStop (stopStep s StopEv.tick) rest := rfl
          rw [this]
          exact ih _ (by simp [stopStep, ht, hr]) (by simp [stopStep, ht])
      | exits id =>
          have : runStop s (StopEv.exits id :: rest) =
              runStop (stopStep s (StopEv.exits id)) rest := rfl
          rw [this]
          exact ih _ (by simp [stopStep, hr]) (by simp [stopStep, ht])

/-- C2: on a pool of one tracked worker, `stop()`'s promise is driven by a
single deferred poll of the registry: when the worker's exit notification
is processed after that one tick check, the registry does become empty,
yet the promise is never resolved -- under any continuation of the event
sequence -- while the favourable ordering (exit before tick) does resolve
it. This contradicts the required behaviour that the promise resolve
exactly once after all exit notifications are processed regardless of
their timing. -/
theorem stop_single_poll_misses_late_exits (es : List StopEv) :
    (runStop (stop ⟨1, true, true, false, 500,
        [⟨"w1", 0, none, ExitMode.default⟩], []⟩).2
        [StopEv.tick, StopEv.exits "w1"]).workers = []
    ∧ (runStop (stop ⟨1, true, true, false, 500,
        [⟨"w1", 0, none, ExitMode.default⟩], []⟩).2
        (StopEv.tick :: StopEv.exits "w1" :: es)).resolved = false
    ∧ (runStop (stop ⟨1, true, true, false, 500,
        [⟨"w1", 0, none, ExitMode.default⟩], []⟩).2
        [StopEv.exits "w1", StopEv.tick]).resolved = true := by
  refine ⟨by decide, ?_, by decide⟩
  have h1 : runStop (stop ⟨1, true, true, false, 500,
      [⟨"w1", 0, none, ExitMode.default⟩], []⟩).2
      (StopEv.tick :: StopEv.exits "w1" :: es) =
      runStop ⟨[], false, false⟩ es := by
    show runStop (stopStep (stopStep ⟨["w1"], false, true⟩ StopEv.tick)
        (StopEv.exits "w1")) es = runStop ⟨[], false, false⟩ es
    norm_num [stopStep]
  rw [h1]
  exact runStop_resolved_stable es ⟨[], false, false⟩ rfl rfl

/-- Once the singleton flag is set, no construction ever succeeds again. -/
theorem runConstructions_true (m : Nat) : runConstructions true m = (0, true) := by
  induction m with
  | zero => rfl
  | succ k ih => simp [runConstructions, constructWorker, ih]

/-- C7: the first WorkerAgent construction in a process succeeds (setting
the static flag), any construction under a set flag throws the
single-instance error synchronously, and any sequence of `n + 1`
construction attempts in one process yields exactly one instance. -/
theorem worker_single_instance (n : Nat) :
    constructWorker false = Except.ok (true, ⟨0⟩)
    ∧ constructWorker true =
        Except.error "[cluster-ops] Worker instance has already been created in this process"
    ∧ runConstructions false (n + 1) = (1, true) := by
  refine ⟨rfl, rfl, ?_⟩
  simp [runConstructions, constructWorker, runConstructions_true]

/-- C6: a received EXIT system call runs every previously registered
"exit" listener, in order, with classification `{requested: true}`, and
terminates the process with code 0 only after all of them (the terminator
is appended last); the uncaught-error monitoring hook runs the listeners
with `{error: true}` and never terminates the process; a caught signal or
loss of the channel runs the listeners and then terminates with code 0. -/
theorem worker_exit_semantics (n : Nat) (s : String) :
    workerOnMessage ⟨n⟩ ⟨JType.jnull, some Syscall.EXIT⟩ =
        ((List.range n).map (fun i => WEvent.listenerRan i WClass.requested))
          ++ [WEvent.exited 0]
    ∧ workerOnUncaught ⟨n⟩ =
        (List.range n).map (fun i => WEvent.listenerRan i WClass.error)
    ∧ (∀ c : Int, WEvent.exited c ∉ workerOnUncaught ⟨n⟩)
    ∧ workerOnSignal ⟨n⟩ s =
        ((List.range n).map (fun i => WEvent.listenerRan i (WClass.signal s)))
          ++ [WEvent.exited 0]
    ∧ workerOnDisconnect ⟨n⟩ =
        ((List.range n).map (fun i => WEvent.listenerRan i WClass.disconnected))
          ++ [WEvent.exited 0] := by
  refine ⟨rfl, rfl, ?_, rfl, rfl⟩
  intro c hc
  simp [workerOnUncaught, workerOnExit] at hc

/-- Updating exit listeners does not change the registry's key list. -/
theorem workerKeys_term_map (ws : List WorkerRec) (k : String) :
    workerKeys (ws.map (fun v =>
      if v.id = k then { v with exitMode := ExitMode.terminating } else v)) =
      workerKeys ws := by
  simp only [workerKeys, List.map_map]
  apply List.map_congr_left
  intro v _
  by_cases h : v.id = k <;> simp [h]

/-- `#terminateWorker` on a registered id succeeds, sends the EXIT system
message, and swaps that worker's exit handler. -/
theorem terminateWorker_ok (st : Cluster) (k : String)
    (h : k ∈ workerKeys st.workers) :
    terminateWorker st k = DownResult.ok
      { st with
        workers := st.workers.map (fun v =>
          if v.id = k then { v with exitMode := ExitMode.terminating } else v),
        sent := st.sent ++ [⟨JType.jnull, Syscall.EXIT, k⟩] } := by
  have hex : ∃ w ∈ st.workers, w.id = k := by
    simpa [workerKeys, eq_comm] using h
  cases hfind : st.workers.find? (fun w => w.id = k) with
  | none =>
      rw [List.find?_eq_none] at hfind
      obtain ⟨w, hw, hwk⟩ := hex
      exact absurd (by simpa using hwk) (hfind w hw)
  | some w => simp [terminateWorker, hfind]

/-- Behaviour of the indexed termination loop: it never changes
`target_workers` or the key list; when the index range stays within the
key array it completes normally having sent one EXIT message per visited
key; when the range runs past the end it throws. -/
theorem terminateSeq_spec (keys : List String) : ∀ (n i : Nat) (st : Cluster),
    workerKeys st.workers = keys → i ≤ keys.length →
    (terminateSeq st keys i n).state.target_workers = st.target_workers
    ∧ workerKeys (terminateSeq st keys i n).state.workers = keys
    ∧ (i + n ≤ keys.length →
        (terminateSeq st keys i n).didThrow = false
        ∧ (terminateSeq st keys i n).state.sent =
            st.sent ++ ((keys.drop i).take n).map
              (fun k => (⟨JType.jnull, Syscall.EXIT, k⟩ : TermMsg)))
    ∧ (keys.length < i + n → (terminateSeq st keys i n).didThrow = true) := by
  intro n
  induction n with
  | zero =>
      intro i st hkeys hi
      refine ⟨rfl, hkeys, fun _ => ⟨rfl, by simp [terminateSeq, DownResult.state]⟩, ?_⟩
      intro hlen
      omega
  | succ m ih =>
      intro i st hkeys hi
      by_cases hilt : i < keys.length
      · have hget : keys[i]? = some keys[i] := List.getElem?_eq_getElem hilt
        have hmem : keys[i] ∈ workerKeys st.workers := by
          rw [hkeys]; exact List.getElem_mem hilt
        have hterm := terminateWorker_ok st keys[i] hmem
        have hstep : terminateSeq st keys i (m + 1) =
            terminateSeq
              { st with
                workers := st.workers.map (fun v =>
                  if v.id = keys[i] then
                    { v with exitMode := ExitMode.terminating } else v),
                sent := st.sent ++ [⟨JType.jnull, Syscall.EXIT, keys[i]⟩] }
              keys (i + 1) m := by
          simp only [terminateSeq, hget, hterm]
        have hkeys' : workerKeys ({ st with
            workers := st.workers.map (fun v =>
              if v.id = keys[i] then
                { v with exitMode := ExitMode.terminating } else v),
            sent := st.sent ++ [⟨JType.jnull, Syscall.EXIT, keys[i]⟩] }
            : Cluster).workers = keys := by
          simpa [workerKeys_term_map] using hkeys
        obtain ⟨ht, hk, hok, hthrew⟩ := ih (i + 1) _ hkeys' hilt
        rw [hstep]
        refine ⟨ht, hk, ?_, ?_⟩
        · intro hle
          have hle' : i + 1 + m ≤ keys.length := by omega
          obtain ⟨hth, hsent⟩ := hok hle'
          refine ⟨hth, ?_⟩
          rw [hsent]
          have hdrop : keys.drop i = keys[i] :: keys.drop (i + 1) :=
            List.drop_eq_getElem_cons hilt
          rw [hdrop, List.take_succ_cons, List.map_cons, List.append_assoc,
            List.singleton_append]
        · intro hlen
          exact hthrew (by omega)
      · have hnone : keys[i]? = none := by
          rw [List.getElem?_eq_none_iff]
          omega
        have hstep : terminateSeq st keys i (m + 1) = DownResult.threw st
            "TypeError: Cannot read properties of undefined (reading removeAllListeners)" := by
          simp only [terminateSeq, hnone]
        rw [hstep]
        refine ⟨rfl, hkeys, ?_, fun _ => rfl⟩
        intro hle
        omega

/-- C10: `spinDown(x, force=true)` with `x` exceeding the number of
registered workers throws a synchronous TypeError (the loop indexes past
the end of the key array and dereferences a missing handle) after
`target_workers` has already been decreased by `x`; any request with
`0 ≤ x` at most the running worker count completes without throwing. -/
theorem spinDown_force_excess_throws (st : Cluster) (x : Int)
    (hx : (runningWorkers st : Int) < x) :
    (spinDown st x true).didThrow = true
    ∧ (spinDown st x true).state.target_workers = st.target_workers - x
    ∧ (∀ y : Int, 0 ≤ y → y ≤ (runningWorkers st : Int) →
        (spinDown st y true).didThrow = false) := by
  have hkeys : workerKeys
      ({ st with target_workers := st.target_workers - x } : Cluster).workers =
      workerKeys st.workers := rfl
  obtain ⟨ht, _, _, hthrew⟩ :=
    terminateSeq_spec (workerKeys st.workers) x.toNat 0
      { st with target_workers := st.target_workers - x } hkeys (Nat.zero_le _)
  have hlen : (workerKeys st.workers).length < 0 + x.toNat := by
    have : (workerKeys st.workers).length < x.toNat := Int.lt_toNat.mpr hx
    omega
  refine ⟨hthrew hlen, by simpa [spinDown] using ht, ?_⟩
  intro y hy0 hy
  have hkeysy : workerKeys
      ({ st with target_workers := st.target_workers - y } : Cluster).workers =
      workerKeys st.workers := rfl
  obtain ⟨_, _, hok, _⟩ :=
    terminateSeq_spec (workerKeys st.workers) y.toNat 0
      { st with target_workers := st.target_workers - y } hkeysy (Nat.zero_le _)
  have hle : 0 + y.toNat ≤ (workerKeys st.workers).length := by
    have : y.toNat ≤ (workerKeys st.workers).length := Int.toNat_le.mpr hy
    omega
  simpa [spinDown] using (hok hle).1

/-- Witness for C10 at a concrete one-worker pool and `x = 2`. -/
theorem spinDown_force_excess_throws_witness :
    ((runningWorkers ⟨3, true, true, false, 500,
        [⟨"a", 0, none, ExitMode.default⟩], []⟩ : Int) < 2)
    ∧ (spinDown ⟨3, true, true, false, 500,
        [⟨"a", 0, none, ExitMode.default⟩], []⟩ 2 true).didThrow = true
    ∧ (spinDown ⟨3, true, true, false, 500,
        [⟨"a", 0, none, ExitMode.default⟩], []⟩ 2 true).state.target_workers = 3 - 2
    ∧ (∀ y : Int, 0 ≤ y →
        y ≤ (runningWorkers ⟨3, true, true, false, 500,
          [⟨"a", 0, none, ExitMode.default⟩], []⟩ : Int) →
        (spinDown ⟨3, true, true, false, 500,
          [⟨"a", 0, none, ExitMode.default⟩], []⟩ y true).didThrow = false) :=
  ⟨by decide,
    spinDown_force_excess_throws ⟨3, true, true, false, 500,
      [⟨"a", 0, none, ExitMode.default⟩], []⟩ 2 (by decide)⟩

/-- C3 counterexample: on a pool of 5 running workers,
`spinDown(2, force=true)` leaves the running count at 5 (not 3) and sends
EXIT system-call messages to two workers: the graceful handshake is used,
not bypassed, and no registry entry is removed by the call itself. -/
theorem spinDown_force_counterexample :
    runningWorkers (spinDown ⟨5, true, true, false, 500,
      [⟨"a", 0, none, ExitMode.default⟩, ⟨"b", 0, none, ExitMode.default⟩,
       ⟨"c", 0, none, ExitMode.default⟩, ⟨"d", 0, none, ExitMode.default⟩,
       ⟨"e", 0, none, ExitMode.default⟩], []⟩ 2 true).state = 5
    ∧ (spinDown ⟨5, true, true, false, 500,
      [⟨"a", 0, none, ExitMode.default⟩, ⟨"b", 0, none, ExitMode.default⟩,
       ⟨"c", 0, none, ExitMode.default⟩, ⟨"d", 0, none, ExitMode.default⟩,
       ⟨"e", 0, none, ExitMode.default⟩], []⟩ 2 true).state.sent =
      [⟨JType.jnull, Syscall.EXIT, "a"⟩, ⟨JType.jnull, Syscall.EXIT, "b"⟩] := by
  constructor <;> decide

/-- C3 (amended): `spinDown(n, force=true)` on a pool of at least `n`
running workers decreases `target_workers` by `n` and initiates the
graceful EXIT handshake with the first `n` tracked workers (one
`{type: null, system: EXIT}` message each); no registry entry is removed
by the call, so the running count is unchanged until the exit
notifications arrive. -/
theorem spinDown_force_is_graceful (st : Cluster) (n : Nat)
    (hn : n ≤ runningWorkers st) :
    spinDown st (n : Int) true = DownResult.ok ((spinDown st (n : Int) true).state)
    ∧ (spinDown st (n : Int) true).state.target_workers = st.target_workers - n
    ∧ runningWorkers (spinDown st (n : Int) true).state = runningWorkers st
    ∧ (spinDown st (n : Int) true).state.sent =
        st.sent ++ ((workerKeys st.workers).take n).map
          (fun k => (⟨JType.jnull, Syscall.EXIT, k⟩ : TermMsg)) := by
  have hkeys : workerKeys
      ({ st with target_workers := st.target_workers - n } : Cluster).workers =
      workerKeys st.workers := rfl
  obtain ⟨ht, hk, hok, _⟩ :=
    terminateSeq_spec (workerKeys st.workers) (n : Int).toNat 0
      { st with target_workers := st.target_workers - n } hkeys (Nat.zero_le _)
  have htn : ((n : Int)).toNat = n := Int.toNat_natCast n
  have hle : 0 + ((n : Int)).toNat ≤ (workerKeys st.workers).length := by
    simpa [htn, runningWorkers] using hn
  obtain ⟨hth, hsent⟩ := hok hle
  have heq : spinDown st (n : Int) true =
      terminateSeq { st with target_workers := st.target_workers - n }
        (workerKeys st.workers) 0 ((n : Int)).toNat := rfl
  refine ⟨?_, by simpa [heq] using ht, ?_, ?_⟩
  · rw [heq]
    cases hc : terminateSeq { st with target_workers := st.target_workers - n }
        (workerKeys st.workers) 0 ((n : Int)).toNat with
    | ok st' => rfl
    | threw st' m =>
        rw [hc] at hth
        exact absurd hth (by simp [DownResult.didThrow])
  · have : runningWorkers (spinDown st (n : Int) true).state =
        (workerKeys (spinDown st (n : Int) true).state.workers).length := rfl
    rw [this, heq, hk]
    rfl
  · rw [heq, hsent, htn]
    simp

/-- Deleting a key and the deleted entries partition the registry. -/
theorem eraseWorker_length_add (ws : List WorkerRec) (id : String) :
    (eraseWorker ws id).length + (ws.filter (fun v => v.id = id)).length = ws.length := by
  induction ws with
  | nil => rfl
  | cons a t ih =>
      by_cases ha : a.id = id <;> simp [eraseWorker, ha] at ih ⊢ <;> omega

/-- Deleting the key of a uniquely registered worker shrinks the registry
by exactly one entry. -/
theorem eraseWorker_length (ws : List WorkerRec) (id : String)
    (h : (ws.filter (fun v => v.id = id)).length = 1) :
    (eraseWorker ws id).length + 1 = ws.length := by
  have := eraseWorker_length_add ws id
  omega

/-- A deleted key is gone from the registry. -/
theorem notMem_workerKeys_eraseWorker (ws : List WorkerRec) (id : String) :
    id ∉ workerKeys (eraseWorker ws id) := by
  intro h
  simp only [workerKeys, eraseWorker, List.mem_map, List.mem_filter] at h
  obtain ⟨v, ⟨_, hne⟩, hv⟩ := h
  simp [hv] at hne

/-- Keys survive deletion of a different key backwards: a key absent from
the registry is absent after any deletion. -/
theorem workerKeys_eraseWorker_subset (ws : List WorkerRec) (a b : String)
    (h : a ∉ workerKeys ws) : a ∉ workerKeys (eraseWorker ws b) := by
  intro hmem
  apply h
  simp only [workerKeys, eraseWorker, List.mem_map, List.mem_filter] at hmem ⊢
  obtain ⟨v, ⟨hv, _⟩, hva⟩ := hmem
  exact ⟨v, hv, hva⟩

/-- Spawning under a fresh id appends a fresh record. -/
theorem spawnWorker_fresh (st : Cluster) (a : String) (now : Nat)
    (h : a ∉ workerKeys st.workers) :
    spawnWorker st a now =
      { st with workers := st.workers ++ [⟨a, now, none, ExitMode.default⟩] } := by
  have hany : st.workers.any (fun v => v.id = a) = false := by
    simp only [List.any_eq_false, decide_eq_true_eq]
    intro v hv hva
    exact h (by simp [workerKeys]; exact ⟨v, hv, hva⟩)
  simp [spawnWorker, insertWorker, hany]

/-- `spawnMany` never changes `target_workers`. -/
theorem spawnMany_target (now : Nat) : ∀ (L : List String) (st : Cluster),
    (spawnMany st L now).target_workers = st.target_workers := by
  intro L
  induction L with
  | nil => intro st; rfl
  | cons a t ih =>
      intro st
      have hstep : spawnMany st (a :: t) now = spawnMany (spawnWorker st a now) t now := rfl
      rw [hstep, ih]
      rfl

/-- `spawnMany` over pairwise-distinct fresh ids appends one fresh record
per id, in order. -/
theorem spawnMany_workers (now : Nat) : ∀ (L : List String) (st : Cluster),
    (∀ id ∈ L, id ∉ workerKeys st.workers) → L.Nodup →
    (spawnMany st L now).workers =
      st.workers ++ L.map (fun id => (⟨id, now, none, ExitMode.default⟩ : WorkerRec)) := by
  intro L
  induction L with
  | nil => intro st _ _; simp [spawnMany]
  | cons a t ih =>
      intro st hfresh hnodup
      have hins := spawnWorker_fresh st a now (hfresh a (List.mem_cons_self a t))
      have hstep : spawnMany st (a :: t) now = spawnMany (spawnWorker st a now) t now := rfl
      rw [hstep, hins]
      have hfresh' : ∀ id ∈ t, id ∉ workerKeys
          ({ st with workers := st.workers ++ [⟨a, now, none, ExitMode.default⟩] }
            : Cluster).workers := by
        intro id hid
        have h1 : id ∉ workerKeys st.workers := hfresh id (List.mem_cons_of_mem _ hid)
        have h2 : id ≠ a := by
          intro h
          exact (List.nodup_cons.mp hnodup).1 (h ▸ hid)
        simp only [workerKeys, List.map_append, List.mem_append, List.map_cons,
          List.map_nil, List.mem_singleton]
        rintro (hl | hr)
        · exact h1 hl
        · exact h2 hr
      rw [ih _ hfresh' (List.nodup_cons.mp hnodup).2]
      simp

/-- C1: for a worker exit with no signal and a nonzero code, a `restart`
event (with the dead worker carrying its death_time, the fresh
replacement record, the code, and no signal) is emitted if and only if the
post-removal registry size is below `target_workers`, `restart_on_error`
holds and the worker's age reached `min_restart_age`; when the age
threshold fails the running count just drops by one and only `death` is
emitted; on replacement the event list is exactly `death` then one
`restart`. -/
theorem onExit_nonzero_code_restart_policy (st : Cluster) (w : WorkerRec)
    (code : Int) (now : Nat) (newId : String)
    (hcode : code ≠ 0)
    (hone : (st.workers.filter (fun v => v.id = w.id)).length = 1) :
    (SupEvent.restart { w with death := some now }
        ⟨newId, now, none, ExitMode.default⟩ code none
        ∈ (onExit st w code none now newId).2
      ↔ (((eraseWorker st.workers w.id).length : Int) < st.target_workers
          ∧ st.restart_on_error = true
          ∧ (now : Int) - (w.birth : Int) ≥ st.min_restart_age))
    ∧ (¬ ((now : Int) - (w.birth : Int) ≥ st.min_restart_age) →
        (onExit st w code none now newId).1.workers.length + 1 = st.workers.length
        ∧ (onExit st w code none now newId).2 =
            [SupEvent.death { w with death := some now } code none])
    ∧ ((((eraseWorker st.workers w.id).length : Int) < st.target_workers
          ∧ st.restart_on_error = true
          ∧ (now : Int) - (w.birth : Int) ≥ st.min_restart_age) →
        (onExit st w code none now newId).2 =
          [SupEvent.death { w with death := some now } code none,
           SupEvent.restart { w with death := some now }
             ⟨newId, now, none, ExitMode.default⟩ code none]) := by
  have herase := eraseWorker_length st.workers w.id hone
  by_cases h1 : ((eraseWorker st.workers w.id).length : Int) < st.target_workers
  · by_cases h2 : (now : Int) - (w.birth : Int) ≥ st.min_restart_age
    · by_cases h3 : st.restart_on_error = true
      · have hmain : onExit st w code none now newId =
            (spawnWorker { st with workers := eraseWorker st.workers w.id } newId now,
              [SupEvent.death { w with death := some now } code none,
               SupEvent.restart { w with death := some now }
                 ⟨newId, now, none, ExitMode.default⟩ code none]) := by
          simp [onExit, h1, h2, h3, hcode]
        rw [hmain]
        refine ⟨by simp [h1, h2, h3], fun h => absurd h2 h, fun _ => rfl⟩
      · have hmain : onExit st w code none now newId =
            ({ st with workers := eraseWorker st.workers w.id },
              [SupEvent.death { w with death := some now } code none]) := by
          simp [onExit, h1, h2, h3, hcode]
        rw [hmain]
        refine ⟨by simp [h3], fun _ => ⟨herase, rfl⟩, fun hc => absurd hc.2.1 h3⟩
    · have hmain : onExit st w code none now newId =
          ({ st with workers := eraseWorker st.workers w.id },
            [SupEvent.death { w with death := some now } code none]) := by
        simp [onExit, h1, h2, hcode]
      rw [hmain]
      refine ⟨by simp [h2], fun _ => ⟨herase, rfl⟩, fun hc => absurd hc.2.2 h2⟩
  · have hmain : onExit st w code none now newId =
        ({ st with workers := eraseWorker st.workers w.id },
          [SupEvent.death { w with death := some now } code none]) := by
      simp [onExit, h1, hcode]
    rw [hmain]
    refine ⟨by simp [h1], fun _ => ⟨herase, rfl⟩, fun hc => absurd hc.1 h1⟩

/-- Witness for C1 at a concrete two-worker pool: worker "a" dies with
code 1 at age 600 ≥ 500, `restart_on_error` on. -/
theorem onExit_nonzero_code_restart_policy_witness :
    ((1 : Int) ≠ 0)
    ∧ (((⟨2, true, true, false, 500,
        [⟨"a", 0, none, ExitMode.default⟩, ⟨"b", 0, none, ExitMode.default⟩],
        []⟩ : Cluster).workers.filter
          (fun v => v.id = (⟨"a", 0, none, ExitMode.default⟩ : WorkerRec).id)).length = 1)
    ∧ ((SupEvent.restart
          { (⟨"a", 0, none, ExitMode.default⟩ : WorkerRec) with death := some 600 }
          ⟨"c", 600, none, ExitMode.default⟩ 1 none
        ∈ (onExit ⟨2, true, true, false, 500,
            [⟨"a", 0, none, ExitMode.default⟩, ⟨"b", 0, none, ExitMode.default⟩], []⟩
            ⟨"a", 0, none, ExitMode.default⟩ 1 none 600 "c").2
      ↔ (((eraseWorker
            (⟨2, true, true, false, 500,
              [⟨"a", 0, none, ExitMode.default⟩, ⟨"b", 0, none, ExitMode.default⟩],
              []⟩ : Cluster).workers
            (⟨"a", 0, none, ExitMode.default⟩ : WorkerRec).id).length : Int) <
            (⟨2, true, true, false, 500,
              [⟨"a", 0, none, ExitMode.default⟩, ⟨"b", 0, none, ExitMode.default⟩],
              []⟩ : Cluster).target_workers
        ∧ (⟨2, true, true, false, 500,
            [⟨"a", 0, none, ExitMode.default⟩, ⟨"b", 0, none, ExitMode.default⟩],
            []⟩ : Cluster).restart_on_error = true
        ∧ ((600 : Nat) : Int) -
            (((⟨"a", 0, none, ExitMode.default⟩ : WorkerRec).birth : Nat) : Int) ≥
            (⟨2, true, true, false, 500,
              [⟨"a", 0, none, ExitMode.default⟩, ⟨"b", 0, none, ExitMode.default⟩],
              []⟩ : Cluster).min_restart_age))
    ∧ (¬ (((600 : Nat) : Int) -
          (((⟨"a", 0, none, ExitMode.default⟩ : WorkerRec).birth : Nat) : Int) ≥
          (⟨2, true, true, false, 500,
            [⟨"a", 0, none, ExitMode.default⟩, ⟨"b", 0, none, ExitMode.default⟩],
            []⟩ : Cluster).min_restart_age) →
        (onExit ⟨2, true, true, false, 500,
            [⟨"a", 0, none, ExitMode.default⟩, ⟨"b", 0, none, ExitMode.default⟩], []⟩
            ⟨"a", 0, none, ExitMode.default⟩ 1 none 600 "c").1.workers.length + 1 =
          (⟨2, true, true, false, 500,
            [⟨"a", 0, none, ExitMode.default⟩, ⟨"b", 0, none, ExitMode.default⟩],
            []⟩ : Cluster).workers.length
        ∧ (onExit ⟨2, true, true, false, 500,
            [⟨"a", 0, none, ExitMode.default⟩, ⟨"b", 0, none, ExitMode.default⟩], []⟩
            ⟨"a", 0, none, ExitMode.default⟩ 1 none 600 "c").2 =
            [SupEvent.death
              { (⟨"a", 0, none, ExitMode.default⟩ : WorkerRec) with death := some 600 }
              1 none])
    ∧ ((((eraseWorker
            (⟨2, true, true, false, 500,
              [⟨"a", 0, none, ExitMode.default⟩, ⟨"b", 0, none, ExitMode.default⟩],
              []⟩ : Cluster).workers
            (⟨"a", 0, none, ExitMode.default⟩ : WorkerRec).id).length : Int) <
            (⟨2, true, true, false, 500,
              [⟨"a", 0, none, ExitMode.default⟩, ⟨"b", 0, none, ExitMode.default⟩],
              []⟩ : Cluster).target_workers
        ∧ (⟨2, true, true, false, 500,
            [⟨"a", 0, none, ExitMode.default⟩, ⟨"b", 0, none, ExitMode.default⟩],
            []⟩ : Cluster).restart_on_error = true
        ∧ ((600 : Nat) : Int) -
            (((⟨"a", 0, none, ExitMode.default⟩ : WorkerRec).birth : Nat) : Int) ≥
            (⟨2, true, true, false, 500,
              [⟨"a", 0, none, ExitMode.default⟩, ⟨"b", 0, none, ExitMode.default⟩],
              []⟩ : Cluster).min_restart_age) →
        (onExit ⟨2, true, true, false, 500,
            [⟨"a", 0, none, ExitMode.default⟩, ⟨"b", 0, none, ExitMode.default⟩], []⟩
            ⟨"a", 0, none, ExitMode.default⟩ 1 none 600 "c").2 =
          [SupEvent.death
            { (⟨"a", 0, none, ExitMode.default⟩ : WorkerRec) with death := some 600 }
            1 none,
           SupEvent.restart
            { (⟨"a", 0, none, ExitMode.default⟩ : WorkerRec) with death := some 600 }
            ⟨"c", 600, none, ExitMode.default⟩ 1 none])) :=
  ⟨by decide, by decide,
    onExit_nonzero_code_restart_policy
      ⟨2, true, true, false, 500,
        [⟨"a", 0, none, ExitMode.default⟩, ⟨"b", 0, none, ExitMode.default⟩], []⟩
      ⟨"a", 0, none, ExitMode.default⟩ 1 600 "c" (by decide) (by decide)⟩

/-- Witness for C3 (amended) at a concrete one-worker pool and `n = 1`. -/
theorem spinDown_force_is_graceful_witness :
    (1 ≤ runningWorkers ⟨2, true, true, false, 500,
        [⟨"a", 0, none, ExitMode.default⟩], []⟩)
    ∧ (spinDown ⟨2, true, true, false, 500, [⟨"a", 0, none, ExitMode.default⟩], []⟩
          ((1 : Nat) : Int) true =
        DownResult.ok ((spinDown ⟨2, true, true, false, 500,
          [⟨"a", 0, none, ExitMode.default⟩], []⟩ ((1 : Nat) : Int) true).state)
      ∧ (spinDown ⟨2, true, true, false, 500, [⟨"a", 0, none, ExitMode.default⟩], []⟩
          ((1 : Nat) : Int) true).state.target_workers = 2 - ((1 : Nat) : Int)
      ∧ runningWorkers (spinDown ⟨2, true, true, false, 500,
          [⟨"a", 0, none, ExitMode.default⟩], []⟩ ((1 : Nat) : Int) true).state =
          runningWorkers ⟨2, true, true, false, 500,
            [⟨"a", 0, none, ExitMode.default⟩], []⟩
      ∧ (spinDown ⟨2, true, true, false, 500, [⟨"a", 0, none, ExitMode.default⟩], []⟩
          ((1 : Nat) : Int) true).state.sent =
          [] ++ ((workerKeys [⟨"a", 0, none, ExitMode.default⟩]).take 1).map
            (fun k => (⟨JType.jnull, Syscall.EXIT, k⟩ : TermMsg))) :=
  ⟨by decide,
    spinDown_force_is_graceful
      ⟨2, true, true, false, 500, [⟨"a", 0, none, ExitMode.default⟩], []⟩ 1 (by decide)⟩

/-- C4: an inbound worker message with null type and a SPIN_UP call of
count `c` makes the supervisor behave exactly as if the owner called
`spinUp(c)`: `target_workers` grows by `c`, and (for fresh pairwise
distinct generated ids) the running count grows by `c` as well. -/
theorem onMessage_spin_up_acts_as_spinUp (st : Cluster) (wid : String)
    (msg : InMsg) (ids : Nat → String) (now : Nat)
    (htype : msg.type = JType.jnull) (hcall : msg.call = some Syscall.SPIN_UP)
    (hcount : 0 ≤ msg.count)
    (hfresh : ∀ id ∈ supplyIds ids msg.count.toNat, id ∉ workerKeys st.workers)
    (hnodup : (supplyIds ids msg.count.toNat).Nodup) :
    onMessage st wid msg ids now = (DownResult.ok (spinUp st msg.count ids now), [])
    ∧ (spinUp st msg.count ids now).target_workers = st.target_workers + msg.count
    ∧ ((runningWorkers (spinUp st msg.count ids now) : Int) =
        (runningWorkers st : Int) + msg.count) := by
  obtain ⟨t, c, cnt⟩ := msg
  simp only at htype hcall hcount hfresh hnodup
  subst htype
  subst hcall
  refine ⟨by simp [onMessage, onSystemMessage], by simp [spinUp, spawnMany_target], ?_⟩
  show (runningWorkers (spinUp st cnt ids now) : Int) = (runningWorkers st : Int) + cnt
  have hfresh' : ∀ id ∈ supplyIds ids cnt.toNat, id ∉ workerKeys
      ({ st with target_workers := st.target_workers + cnt } : Cluster).workers := hfresh
  have hw := spawnMany_workers now (supplyIds ids cnt.toNat)
    { st with target_workers := st.target_workers + cnt } hfresh' hnodup
  have hlen : (spinUp st cnt ids now).workers.length =
      st.workers.length + cnt.toNat := by
    show (spawnMany { st with target_workers := st.target_workers + cnt }
      (supplyIds ids cnt.toNat) now).workers.length = st.workers.length + cnt.toNat
    rw [hw]
    simp [supplyIds]
  have hrun : runningWorkers (spinUp st cnt ids now) =
      (spinUp st cnt ids now).workers.length := by
    simp [runningWorkers, workerKeys]
  have hrun0 : runningWorkers st = st.workers.length := by
    simp [runningWorkers, workerKeys]
  rw [hrun, hrun0, hlen]
  omega

/-- Witness for C4: one-worker pool, SPIN_UP with count 2. -/
theorem onMessage_spin_up_acts_as_spinUp_witness :
    ((⟨JType.jnull, some Syscall.SPIN_UP, 2⟩ : InMsg).type = JType.jnull)
    ∧ ((⟨JType.jnull, some Syscall.SPIN_UP, 2⟩ : InMsg).call = some Syscall.SPIN_UP)
    ∧ (0 ≤ (⟨JType.jnull, some Syscall.SPIN_UP, 2⟩ : InMsg).count)
    ∧ (∀ id ∈ supplyIds (fun i => if i = 0 then "b" else "c")
          ((⟨JType.jnull, some Syscall.SPIN_UP, 2⟩ : InMsg).count).toNat,
        id ∉ workerKeys [⟨"a", 0, none, ExitMode.default⟩])
    ∧ ((supplyIds (fun i => if i = 0 then "b" else "c")
          ((⟨JType.jnull, some Syscall.SPIN_UP, 2⟩ : InMsg).count).toNat).Nodup)
    ∧ (onMessage ⟨1, true, true, false, 500, [⟨"a", 0, none, ExitMode.default⟩], []⟩
          "w" ⟨JType.jnull, some Syscall.SPIN_UP, 2⟩
          (fun i => if i = 0 then "b" else "c") 7 =
        (DownResult.ok (spinUp
          ⟨1, true, true, false, 500, [⟨"a", 0, none, ExitMode.default⟩], []⟩ 2
          (fun i => if i = 0 then "b" else "c") 7), [])
      ∧ (spinUp ⟨1, true, true, false, 500, [⟨"a", 0, none, ExitMode.default⟩], []⟩ 2
          (fun i => if i = 0 then "b" else "c") 7).target_workers = 1 + 2
      ∧ ((runningWorkers (spinUp
            ⟨1, true, true, false, 500, [⟨"a", 0, none, ExitMode.default⟩], []⟩ 2
            (fun i => if i = 0 then "b" else "c") 7) : Int) =
          (runningWorkers ⟨1, true, true, false, 500,
            [⟨"a", 0, none, ExitMode.default⟩], []⟩ : Int) + 2)) :=
  ⟨rfl, rfl, by decide, by decide, by decide,
    onMessage_spin_up_acts_as_spinUp
      ⟨1, true, true, false, 500, [⟨"a", 0, none, ExitMode.default⟩], []⟩ "w"
      ⟨JType.jnull, some Syscall.SPIN_UP, 2⟩
      (fun i => if i = 0 then "b" else "c") 7 rfl rfl (by decide) (by decide) (by decide)⟩

/-- Every exit-handler invocation results in one of two outcomes: plain
removal with a single `death` event, or removal plus replacement with
`death` then `restart`. -/
theorem onExit_shape (st : Cluster) (w : WorkerRec) (code : Int)
    (signal : Option String) (now : Nat) (newId : String) :
    onExit st w code signal now newId =
      ({ st with workers := eraseWorker st.workers w.id },
        [SupEvent.death { w with death := some now } code signal])
    ∨ onExit st w code signal now newId =
      (spawnWorker { st with workers := eraseWorker st.workers w.id } newId now,
        [SupEvent.death { w with death := some now } code signal,
         SupEvent.restart { w with death := some now }
           ⟨newId, now, none, ExitMode.default⟩ code signal]) := by
  simp only [onExit]
  rcases signal with _ | s
  · split_ifs <;> simp
  · split_ifs <;> simp

/-- C5 counterexample: a worker put into graceful termination (via
`terminateWorker`) that then exits normally (code 0, no signal) has its
record removed, but NO `death` event is emitted and no death_time is
recorded: the dispatched replacement exit handler skips both. -/
theorem terminated_worker_exit_counterexample :
    handleExit (terminateWorker ⟨1, true, true, false, 500,
        [⟨"a", 0, none, ExitMode.default⟩], []⟩ "a").state "a" 0 none 1000 "b" =
      (⟨1, true, true, false, 500, [], [⟨JType.jnull, Syscall.EXIT, "a"⟩]⟩, []) := by
  decide

/-- C5 (amended): an exit notification dispatched to the default handler
removes the worker's record (never to return: the replacement, if any,
carries the fresh id) and emits `death` first -- with the worker record
carrying death_time -- optionally followed by exactly one `restart`; an
exit notification for a worker under graceful termination removes the
record exactly once but emits `death` only for an abnormal exit, and sets
no death_time. -/
theorem exit_notification_registry_policy (st : Cluster) (w : WorkerRec)
    (code : Int) (signal : Option String) (now : Nat) (newId : String)
    (hfind : st.workers.find? (fun v => v.id = w.id) = some w)
    (hfresh : newId ∉ workerKeys st.workers) :
    (w.exitMode = ExitMode.default →
        w.id ∉ workerKeys (handleExit st w.id code signal now newId).1.workers
        ∧ (∃ rest, (handleExit st w.id code signal now newId).2 =
            SupEvent.death { w with death := some now } code signal :: rest
          ∧ (rest = []
            ∨ rest = [SupEvent.restart { w with death := some now }
                ⟨newId, now, none, ExitMode.default⟩ code signal])))
    ∧ (w.exitMode = ExitMode.terminating →
        (handleExit st w.id code signal now newId).1.workers =
          eraseWorker st.workers w.id
        ∧ (handleExit st w.id code signal now newId).2 =
            (if signal.isSome ∨ code ≠ 0
              then [SupEvent.death w code signal] else [])) := by
  have hwmem : w ∈ st.workers := List.mem_of_find?_eq_some hfind
  have hwid : w.id ∈ workerKeys st.workers := by
    simp only [workerKeys, List.mem_map]
    exact ⟨w, hwmem, rfl⟩
  have hne : w.id ≠ newId := fun h => hfresh (h ▸ hwid)
  constructor
  · intro hmode
    have hdisp : handleExit st w.id code signal now newId =
        onExit st w code signal now newId := by
      simp [handleExit, hfind, hmode]
    rw [hdisp]
    rcases onExit_shape st w code signal now newId with h | h <;> rw [h]
    · exact ⟨notMem_workerKeys_eraseWorker _ _, [], rfl, Or.inl rfl⟩
    · constructor
      · have hfresh' : newId ∉ workerKeys (eraseWorker st.workers w.id) :=
          workerKeys_eraseWorker_subset _ _ _ hfresh
        rw [spawnWorker_fresh _ _ _ hfresh']
        simp only [workerKeys, List.map_append, List.mem_append, List.map_cons,
          List.map_nil, List.mem_singleton]
        rintro (hl | hr)
        · exact notMem_workerKeys_eraseWorker st.workers w.id hl
        · exact hne hr
      · exact ⟨_, rfl, Or.inr rfl⟩
  · intro hmode
    have hdisp : handleExit st w.id code signal now newId =
        termExitHandler st w code signal := by
      simp [handleExit, hfind, hmode]
    rw [hdisp]
    exact ⟨rfl, rfl⟩

/-- Witness for C5 (amended): a one-worker pool, normal exit, default
handler attached. -/
theorem exit_notification_registry_policy_witness :
    ((⟨1, true, true, false, 500, [⟨"a", 5, none, ExitMode.default⟩], []⟩
        : Cluster).workers.find?
        (fun v => v.id = (⟨"a", 5, none, ExitMode.default⟩ : WorkerRec).id) =
      some ⟨"a", 5, none, ExitMode.default⟩)
    ∧ ("b" ∉ workerKeys [⟨"a", 5, none, ExitMode.default⟩])
    ∧ (((⟨"a", 5, none, ExitMode.default⟩ : WorkerRec).exitMode = ExitMode.default →
          (⟨"a", 5, none, ExitMode.default⟩ : WorkerRec).id ∉
            workerKeys (handleExit
              ⟨1, true, true, false, 500, [⟨"a", 5, none, ExitMode.default⟩], []⟩
              (⟨"a", 5, none, ExitMode.default⟩ : WorkerRec).id 0 none 10 "b").1.workers
          ∧ (∃ rest, (handleExit
              ⟨1, true, true, false, 500, [⟨"a", 5, none, ExitMode.default⟩], []⟩
              (⟨"a", 5, none, ExitMode.default⟩ : WorkerRec).id 0 none 10 "b").2 =
              SupEvent.death { (⟨"a", 5, none, ExitMode.default⟩ : WorkerRec) with
                death := some 10 } 0 none :: rest
            ∧ (rest = []
              ∨ rest = [SupEvent.restart
                  { (⟨"a", 5, none, ExitMode.default⟩ : WorkerRec) with
                    death := some 10 }
                  ⟨"b", 10, none, ExitMode.default⟩ 0 none])))
      ∧ ((⟨"a", 5, none, ExitMode.default⟩ : WorkerRec).exitMode =
            ExitMode.terminating →
          (handleExit
            ⟨1, true, true, false, 500, [⟨"a", 5, none, ExitMode.default⟩], []⟩
            (⟨"a", 5, none, ExitMode.default⟩ : WorkerRec).id 0 none 10 "b").1.workers =
            eraseWorker [⟨"a", 5, none, ExitMode.default⟩]
              (⟨"a", 5, none, ExitMode.default⟩ : WorkerRec).id
          ∧ (handleExit
              ⟨1, true, true, false, 500, [⟨"a", 5, none, ExitMode.default⟩], []⟩
              (⟨"a", 5, none, ExitMode.default⟩ : WorkerRec).id 0 none 10 "b").2 =
              (if (none : Option String).isSome ∨ (0 : Int) ≠ 0
                then [SupEvent.death ⟨"a", 5, none, ExitMode.default⟩ 0 none]
                else []))) :=
  ⟨by decide, by decide,
    exit_notification_registry_policy
      ⟨1, true, true, false, 500, [⟨"a", 5, none, ExitMode.default⟩], []⟩
      ⟨"a", 5, none, ExitMode.default⟩ 0 none 10 "b" (by decide) (by decide)⟩

/-- C9 counterexample: from a freshly configured supervisor (default
target of 1, nothing started yet), a single `spinDown(2)` -- or the same
request arriving as a worker-initiated SPIN_DOWN system call -- drives
`target_workers` to -1: the operations do NOT preserve nonnegativity. -/
theorem target_workers_goes_negative :
    (applyOp ⟨1, true, true, false, 500, [], []⟩
        (Op.opSpinDown 2 false)).target_workers = -1
    ∧ (applyOp ⟨1, true, true, false, 500, [], []⟩
        (Op.opSysMsg ⟨JType.jnull, some Syscall.SPIN_DOWN, 2⟩
          (fun _ => "x") 0)).target_workers = -1 := by
  constructor <;> decide

/-- `spinDown` always sets `target_workers` to the old value minus `x`,
whether or not the forced termination loop throws. -/
theorem spinDown_target (st : Cluster) (x : Int) (force : Bool) :
    (spinDown st x force).state.target_workers = st.target_workers - x := by
  cases force with
  | false => rfl
  | true =>
      have h := (terminateSeq_spec (workerKeys st.workers) x.toNat 0
        { st with target_workers := st.target_workers - x } rfl (Nat.zero_le _)).1
      simpa [spinDown] using h

/-- `stop` never changes `target_workers`. -/
theorem stop_target (st : Cluster) :
    (stop st).1.state.target_workers = st.target_workers := by
  have h := (terminateSeq_spec (workerKeys st.workers)
    (workerKeys st.workers).length 0 st rfl (Nat.zero_le _)).1
  simpa [stop] using h

/-- C9 (amended): every public operation (start, stop, spinUp, spinDown,
refreshWorkers) and every worker-initiated system call preserves
`target_workers ≥ 0` provided the scaling amounts are used safely: spin-up
amounts nonnegative and each spin-down amount at most the current target.
Without that proviso the invariant fails (see the counterexample). -/
theorem applyOp_preserves_target_nonneg (st : Cluster) (op : Op)
    (h0 : 0 ≤ st.target_workers) (hs : opSafe st op) :
    0 ≤ (applyOp st op).target_workers := by
  cases op with
  | opStart ids now =>
      have h := spawnMany_target now (supplyIds ids st.target_workers.toNat) st
      simpa [applyOp, start, h] using h0
  | opStop =>
      have h := stop_target st
      simpa [applyOp, h] using h0
  | opSpinUp x ids now =>
      have hx : 0 ≤ x := hs
      have h := spawnMany_target now (supplyIds ids x.toNat)
        { st with target_workers := st.target_workers + x }
      simp only [applyOp, spinUp, h]
      omega
  | opSpinDown x force =>
      obtain ⟨hx0, hxt⟩ := hs
      have h := spinDown_target st x force
      simp only [applyOp, h]
      omega
  | opRefresh ids now =>
      have h := spawnMany_target now
        (supplyIds ids (st.target_workers - (runningWorkers st : Int)).toNat) st
      show 0 ≤ (spawnMany st
        (supplyIds ids (st.target_workers - (runningWorkers st : Int)).toNat)
        now).target_workers
      rw [h]
      exact h0
  | opSysMsg msg ids now =>
      obtain ⟨t, c, cnt⟩ := msg
      obtain ⟨hup, hdown⟩ := hs
      cases t with
      | jnull =>
          by_cases hc1 : c = some Syscall.SPIN_UP
          · have h := spawnMany_target now (supplyIds ids cnt.toNat)
              { st with target_workers := st.target_workers + cnt }
            have hcnt : 0 ≤ cnt := hup hc1
            simp only [applyOp, onMessage, onSystemMessage, hc1, if_pos,
              DownResult.state, spinUp, h]
            omega
          · by_cases hc2 : c = some Syscall.SPIN_DOWN
            · subst hc2
              obtain ⟨hd0, hdt⟩ := hdown rfl
              have hd0' : (0 : Int) ≤ cnt := hd0
              have hdt' : cnt ≤ st.target_workers := hdt
              have h := spinDown_target st cnt false
              have hgoal : applyOp st (Op.opSysMsg
                  ⟨JType.jnull, some Syscall.SPIN_DOWN, cnt⟩ ids now) =
                  (spinDown st cnt false).state := by
                simp [applyOp, onMessage, onSystemMessage]
              rw [hgoal, h]
              omega
            · have hgoal : applyOp st (Op.opSysMsg ⟨JType.jnull, c, cnt⟩ ids now) = st := by
                simp [applyOp, onMessage, onSystemMessage, hc1, hc2,
                  DownResult.state]
              rw [hgoal]
              exact h0
      | jundef => simpa [applyOp, onMessage] using h0
      | jstr s => simpa [applyOp, onMessage] using h0

/-- Witness for C9 (amended): a safe spin-down of 1 from target 1. -/
theorem applyOp_preserves_target_nonneg_witness :
    (0 ≤ (⟨1, true, true, false, 500, [], []⟩ : Cluster).target_workers)
    ∧ opSafe ⟨1, true, true, false, 500, [], []⟩ (Op.opSpinDown 1 false)
    ∧ 0 ≤ (applyOp ⟨1, true, true, false, 500, [], []⟩
        (Op.opSpinDown 1 false)).target_workers :=
  ⟨by decide, ⟨by decide, by decide⟩,
    applyOp_preserves_target_nonneg ⟨1, true, true, false, 500, [], []⟩
      (Op.opSpinDown 1 false) (by decide) ⟨by decide, by decide⟩⟩

/-- The length of a packed character list. -/
theorem string_length_mk (l : List Char) : (String.mk l).length = l.length := rfl

/-- Appending strings appends their character data. -/
theorem string_data_append (s t : String) : (s ++ t).data = s.data ++ t.data := rfl

/-- String length is additive over append. -/
theorem string_length_append (s t : String) :
    (s ++ t).length = s.length + t.length := by
  show (s.data ++ t.data).length = s.data.length + t.data.length
  simp

/-- Every hex digit value renders to a lowercase hex character. -/
theorem hexChar_isHex (d : Nat) (h : d < 16) : isHexDigitChar (hexChar d) := by
  interval_cases d <;> decide

/-- JS `toString(16)` output length is bounded by the hex-digit count of
any power bound: `n < 16^k` gives at most `k` characters. -/
theorem natToHex_length_le (n k : Nat) (hk : 1 ≤ k) (h : n < 16 ^ k) :
    (natToHex n).length ≤ k := by
  by_cases hn : n = 0
  · subst hn
    simpa [natToHex] using hk
  · rw [natToHex, if_neg hn]
    show ((Nat.digits 16 n).reverse.map hexChar).length ≤ k
    rw [List.length_map, List.length_reverse,
      Nat.digits_len 16 n (by norm_num) hn]
    have hlog := Nat.log_lt_of_lt_pow hn h
    omega

/-- Every character of JS `toString(16)` output is a lowercase hex
digit. -/
theorem natToHex_chars (n : Nat) :
    ∀ ch ∈ (natToHex n).data, isHexDigitChar ch := by
  by_cases hn : n = 0
  · subst hn
    decide
  · intro ch hch
    rw [natToHex, if_neg hn] at hch
    have hch' : ch ∈ (Nat.digits 16 n).reverse.map hexChar := hch
    simp only [List.mem_map, List.mem_reverse] at hch'
    obtain ⟨d, hd, rfl⟩ := hch'
    exact hexChar_isHex d (Nat.digits_lt_base (by norm_num) hd)

/-- `padStart` to a bound at least the current length gives exactly the
bound. -/
theorem padStart_length (s : String) (n : Nat) (c : Char)
    (h : s.length ≤ n) :
    (padStart s n c).length = n := by
  have h' : s.data.length ≤ n := h
  show (List.replicate (n - s.data.length) c ++ s.data).length = n
  simp only [List.length_append, List.length_replicate]
  omega

/-- Characters of a padded string are the pad character or original
characters. -/
theorem padStart_chars (s : String) (n : Nat) (c : Char) :
    ∀ ch ∈ (padStart s n c).data, ch = c ∨ ch ∈ s.data := by
  intro ch hch
  have hch' : ch ∈ List.replicate (n - s.length) c ++ s.data := hch
  rcases List.mem_append.mp hch' with h | h
  · exact Or.inl (List.eq_of_mem_replicate h)
  · exact Or.inr h

/-- The byte loop factors through any prefix of the accumulator. -/
theorem byteFold_append (bytes : List Nat) : ∀ (a b : String),
    bytes.foldl (fun acc x => acc ++ padStart (natToHex x) 2 '0') (a ++ b) =
      a ++ bytes.foldl (fun acc x => acc ++ padStart (natToHex x) 2 '0') b := by
  induction bytes with
  | nil => intro a b; rfl
  | cons x xs ih =>
      intro a b
      show xs.foldl (fun acc x => acc ++ padStart (natToHex x) 2 '0')
          ((a ++ b) ++ padStart (natToHex x) 2 '0') =
        a ++ xs.foldl (fun acc x => acc ++ padStart (natToHex x) 2 '0')
          (b ++ padStart (natToHex x) 2 '0')
      rw [String.append_assoc]
      exact ih a (b ++ padStart (natToHex x) 2 '0')

/-- The generated identity is the padded hex time followed by the hex of
the random bytes. -/
theorem genWorkerId_decomp (timeMs : Nat) (bytes : List Nat) :
    genWorkerId timeMs bytes =
      padStart (natToHex (timeMs / 1000)) 8 '0' ++ bytesHex bytes := by
  have h := byteFold_append bytes (padStart (natToHex (timeMs / 1000)) 8 '0') ""
  rw [String.append_empty] at h
  exact h

/-- Each byte below 256 contributes exactly two characters. -/
theorem byteFold_length : ∀ (bytes : List Nat), (∀ b ∈ bytes, b < 256) →
    ∀ (a : String),
      (bytes.foldl (fun acc x => acc ++ padStart (natToHex x) 2 '0') a).length =
        a.length + 2 * bytes.length := by
  intro bytes
  induction bytes with
  | nil => intro _ a; simp
  | cons x xs ih =>
      intro h a
      have hx : x < 256 := h x (List.mem_cons_self x xs)
      have hlen2 : (padStart (natToHex x) 2 '0').length = 2 :=
        padStart_length _ _ _
          (natToHex_length_le x 2 (by norm_num) (by norm_num [hx]))
      show (xs.foldl (fun acc x => acc ++ padStart (natToHex x) 2 '0')
          (a ++ padStart (natToHex x) 2 '0')).length = a.length + 2 * (xs.length + 1)
      rw [ih (fun b hb => h b (List.mem_cons_of_mem _ hb))
        (a ++ padStart (natToHex x) 2 '0'), string_length_append, hlen2]
      omega

/-- The byte loop only produces lowercase hex characters. -/
theorem byteFold_chars : ∀ (bytes : List Nat) (a : String),
    (∀ ch ∈ a.data, isHexDigitChar ch) →
    ∀ ch ∈ (bytes.foldl (fun acc x => acc ++ padStart (natToHex x) 2 '0') a).data,
      isHexDigitChar ch := by
  intro bytes
  induction bytes with
  | nil => intro a ha; exact ha
  | cons x xs ih =>
      intro a ha
      apply ih
      intro ch hch
      have hch' : ch ∈ a.data ++ (padStart (natToHex x) 2 '0').data := hch
      rcases List.mem_append.mp hch' with h | h
      · exact ha ch h
      · rcases padStart_chars _ _ _ ch h with rfl | h2
        · decide
        · exact natToHex_chars x ch h2

/-- C8 (amended): whenever the truncated Unix time in seconds fits in 8
hex digits (i.e. before the year 2106) and the 8 random bytes are below
256, the generated identity is exactly 24 lowercase hex characters --
the 8-character zero-padded hex of the time followed by 16 characters of
byte hex -- and, whenever the configured env mapping does not itself bind
WORKER_ID, the object passed to the spawn collaborator maps WORKER_ID to
that identity. -/
theorem worker_id_format (timeMs : Nat) (bytes : List Nat)
    (env : List (String × String))
    (htime : timeMs / 1000 < 4294967296)
    (hblen : bytes.length = 8) (hbytes : ∀ b ∈ bytes, b < 256)
    (henv : ∀ p ∈ env, p.1 ≠ "WORKER_ID") :
    genWorkerId timeMs bytes =
      padStart (natToHex (timeMs / 1000)) 8 '0' ++ bytesHex bytes
    ∧ (padStart (natToHex (timeMs / 1000)) 8 '0').length = 8
    ∧ (bytesHex bytes).length = 16
    ∧ (genWorkerId timeMs bytes).length = 24
    ∧ (∀ ch ∈ (genWorkerId timeMs bytes).data, isHexDigitChar ch)
    ∧ objGet (forkEnv (genWorkerId timeMs bytes) env) "WORKER_ID" =
        some (genWorkerId timeMs bytes) := by
  have h8 : (padStart (natToHex (timeMs / 1000)) 8 '0').length = 8 :=
    padStart_length _ _ _
      (natToHex_length_le _ 8 (by norm_num) (by norm_num [htime]))
  have h16 : (bytesHex bytes).length = 16 := by
    have h := byteFold_length bytes hbytes ""
    simp only [bytesHex, h, hblen]
    decide
  have hdec := genWorkerId_decomp timeMs bytes
  have h24 : (genWorkerId timeMs bytes).length = 24 := by
    rw [hdec, string_length_append, h8, h16]
  have hchars : ∀ ch ∈ (genWorkerId timeMs bytes).data, isHexDigitChar ch := by
    have hinit : ∀ ch ∈ (padStart (natToHex (timeMs / 1000)) 8 '0').data,
        isHexDigitChar ch := by
      intro ch hch
      rcases padStart_chars _ _ _ ch hch with rfl | h2
      · decide
      · exact natToHex_chars _ ch h2
    exact byteFold_chars bytes _ hinit
  have hobj : objGet (forkEnv (genWorkerId timeMs bytes) env) "WORKER_ID" =
      some (genWorkerId timeMs bytes) := by
    unfold objGet forkEnv
    rw [List.reverse_cons, List.find?_append]
    have hnone : env.reverse.find? (fun p => p.1 = "WORKER_ID") = none := by
      rw [List.find?_eq_none]
      intro p hp
      simpa using henv p (List.mem_reverse.mp hp)
    rw [hnone]
    simp
  exact ⟨hdec, h8, h16, h24, hchars, hobj⟩

/-- The padded hex rendering of 2^32 seconds (year 2106) is nine digits
long. -/
theorem digits16_2_pow_32 :
    Nat.digits 16 4294967296 = [0, 0, 0, 0, 0, 0, 0, 0, 1] := by
  norm_num [Nat.digits_def']

/-- `toString(16)` of 2^32 has nine characters. -/
theorem natToHex_2_pow_32 : natToHex 4294967296 = "100000000" := by
  unfold natToHex
  rw [if_neg (by norm_num), digits16_2_pow_32]
  decide

/-- C8 counterexample: the claim fails on the code in two ways. At a
clock reading of 2^32 seconds (year 2106) the generated identity has 25
characters, because `padStart(8)` never truncates a longer time field.
And the spread `{WORKER_ID, ...env}` lets a configured env mapping that
itself binds WORKER_ID override the generated identity in the spawned
process's environment. -/
theorem worker_id_counterexample :
    (genWorkerId 4294967296000 (List.replicate 8 0)).length = 25
    ∧ objGet (forkEnv "00000001aaaaaaaaaaaaaaaa" [("WORKER_ID", "boss")])
        "WORKER_ID" = some "boss" := by
  constructor
  · rw [genWorkerId_decomp]
    have h1 : (4294967296000 : Nat) / 1000 = 4294967296 := by norm_num
    rw [h1, natToHex_2_pow_32, string_length_append]
    decide
  · decide

/-- Witness for C8 (amended) at clock 0 with zero bytes and empty env. -/
theorem worker_id_format_witness :
    ((0 : Nat) / 1000 < 4294967296)
    ∧ (List.replicate 8 0).length = 8
    ∧ (∀ b ∈ List.replicate 8 (0 : Nat), b < 256)
    ∧ (∀ p ∈ ([] : List (String × String)), p.1 ≠ "WORKER_ID")
    ∧ (genWorkerId 0 (List.replicate 8 0) =
        padStart (natToHex (0 / 1000)) 8 '0' ++ bytesHex (List.replicate 8 0)
      ∧ (padStart (natToHex (0 / 1000)) 8 '0').length = 8
      ∧ (bytesHex (List.replicate 8 0)).length = 16
      ∧ (genWorkerId 0 (List.replicate 8 0)).length = 24
      ∧ (∀ ch ∈ (genWorkerId 0 (List.replicate 8 0)).data, isHexDigitChar ch)
      ∧ objGet (forkEnv (genWorkerId 0 (List.replicate 8 0)) []) "WORKER_ID" =
          some (genWorkerId 0 (List.replicate 8 0))) :=
  ⟨by decide, by decide, by decide, by decide,
    worker_id_format 0 (List.replicate 8 0) [] (by decide) (by decide)
      (by decide) (by decide)⟩

end ClusterOps
